import Mathlib

/-!
Verification development for the quantum-model repository
(symmetric-state compression notebook, its expanded qmod file, and the
surrounding notebooks).  Python/qmod code is shallowly embedded: the
classical matrix constructors become functions into 8x8 real matrices,
the generative circuit emitters become functions producing gate lists,
and the qmod file and notebook call traces are transcribed literally.
-/

open Matrix

namespace QCompress

/-- Shared shape of the matrices built by the notebook: the source starts
from an 8x8 identity (np.eye) and overwrites the four entries of a 2x2
block at rows/columns r and s with d11, d12, d21, d22. -/
noncomputable def blockMat (r s : Fin 8) (d11 d12 d21 d22 : ℝ) :
    Matrix (Fin 8) (Fin 8) ℝ :=
  Matrix.of fun i j =>
    if i = r ∧ j = r then d11
    else if i = r ∧ j = s then d12
    else if i = s ∧ j = r then d21
    else if i = s ∧ j = s then d22
    else if i = j then 1 else 0

/-- Embedding of the notebook function U_ab(a, b): coefficients
alpha_101 = sqrt(C(a-1, b)), alpha_010 = sqrt(C(a-1, b+1)),
beta_010 = sqrt(C(a, b+1)); x = alpha_010/beta_010, y = alpha_101/beta_010;
the identity with the block at rows/columns 2 and 5 replaced by
[[x, y], [y, -x]]. -/
noncomputable def U_ab (a b : ℕ) : Matrix (Fin 8) (Fin 8) ℝ :=
  let alpha_101 : ℝ := Real.sqrt (Nat.choose (a - 1) b)
  let alpha_010 : ℝ := Real.sqrt (Nat.choose (a - 1) (b + 1))
  let beta_010 : ℝ := Real.sqrt (Nat.choose a (b + 1))
  let x := alpha_010 / beta_010
  let y := alpha_101 / beta_010
  blockMat 2 5 x y y (-x)

/-- Embedding of the notebook function U_final(a): coefficients
alpha_001 = 1, alpha_100 = sqrt(a-1), beta_100 = sqrt(a);
x = alpha_100/beta_100, y = alpha_001/beta_100; the identity with the
block at rows/columns 1 and 4 replaced by [[x, y], [-y, x]]. -/
noncomputable def U_final (a : ℕ) : Matrix (Fin 8) (Fin 8) ℝ :=
  let alpha_001 : ℝ := 1
  let alpha_100 : ℝ := Real.sqrt (a - 1 : ℕ)
  let beta_100 : ℝ := Real.sqrt (a : ℕ)
  let x := alpha_100 / beta_100
  let y := alpha_001 / beta_100
  blockMat 1 4 x y (-y) x

lemma blockMat_sym_orthog (x y : ℝ) (h : x ^ 2 + y ^ 2 = 1) :
    blockMat 2 5 x y y (-x) * (blockMat 2 5 x y y (-x))ᵀ = 1 := by
  ext i j
  fin_cases i <;> fin_cases j <;>
    simp [Matrix.mul_apply, Matrix.transpose_apply, Matrix.one_apply,
      blockMat, Fin.sum_univ_eight] <;>
    nlinarith [h]

lemma blockMat_rot_orthog (x y : ℝ) (h : x ^ 2 + y ^ 2 = 1) :
    blockMat 1 4 x y (-y) x * (blockMat 1 4 x y (-y) x)ᵀ = 1 := by
  ext i j
  fin_cases i <;> fin_cases j <;>
    simp [Matrix.mul_apply, Matrix.transpose_apply, Matrix.one_apply,
      blockMat, Fin.sum_univ_eight] <;>
    nlinarith [h]

lemma Uab_coeff_sq (a b : ℕ) (ha : 1 ≤ a) (hb : b ≤ a - 1) :
    (Real.sqrt (Nat.choose (a - 1) (b + 1)) / Real.sqrt (Nat.choose a (b + 1))) ^ 2
      + (Real.sqrt (Nat.choose (a - 1) b) / Real.sqrt (Nat.choose a (b + 1))) ^ 2 = 1 := by
  have hba : b + 1 ≤ a := by omega
  have hpos : 0 < Nat.choose a (b + 1) := Nat.choose_pos hba
  have hpascal : Nat.choose (a - 1) b + Nat.choose (a - 1) (b + 1)
      = Nat.choose a (b + 1) := by
    obtain ⟨c, hc⟩ : ∃ c, a = c + 1 := ⟨a - 1, by omega⟩
    subst hc
    simp only [Nat.add_sub_cancel]
    exact (Nat.choose_succ_succ c b).symm
  have h2 : (0 : ℝ) < (Nat.choose a (b + 1) : ℝ) := by exact_mod_cast hpos
  rw [div_pow, div_pow,
    Real.sq_sqrt (by positivity : (0 : ℝ) ≤ (Nat.choose (a - 1) (b + 1) : ℝ)),
    Real.sq_sqrt (by positivity : (0 : ℝ) ≤ (Nat.choose (a - 1) b : ℝ)),
    Real.sq_sqrt (le_of_lt h2), div_add_div_same, div_eq_one_iff_eq (ne_of_gt h2)]
  have hcast := congrArg (fun n : ℕ => (n : ℝ)) hpascal
  push_cast at hcast
  linarith [hcast]

lemma Ufinal_coeff_sq (a : ℕ) (ha : 1 ≤ a) :
    (Real.sqrt (a - 1 : ℕ) / Real.sqrt (a : ℕ)) ^ 2
      + ((1 : ℝ) / Real.sqrt (a : ℕ)) ^ 2 = 1 := by
  obtain ⟨c, hc⟩ : ∃ c, a = c + 1 := ⟨a - 1, by omega⟩
  subst hc
  have hpos : (0 : ℝ) < ((c + 1 : ℕ) : ℝ) := by positivity
  rw [div_pow, div_pow, Real.sq_sqrt (by positivity : (0 : ℝ) ≤ ((c + 1 - 1 : ℕ) : ℝ)),
    Real.sq_sqrt (le_of_lt hpos), one_pow, div_add_div_same,
    div_eq_one_iff_eq (ne_of_gt hpos)]
  simp only [Nat.add_sub_cancel]
  push_cast
  ring

/-- C1: for all integers a, b with a at least 1 and b at most a-1, the 8x8
matrix U_ab(a, b) is real orthogonal, with its rotation-block coefficients
satisfying x^2 + y^2 = 1, which rests on the Pascal identity
C(a-1, b) + C(a-1, b+1) = C(a, b+1); likewise U_final(a) is orthogonal
because (a-1)/a + 1/a = 1. -/
theorem c1_U_matrices_orthogonal (a b : ℕ) (ha : 1 ≤ a) (hb : b ≤ a - 1) :
    U_ab a b * (U_ab a b)ᵀ = 1
    ∧ (U_ab a b 2 2) ^ 2 + (U_ab a b 2 5) ^ 2 = 1
    ∧ Nat.choose (a - 1) b + Nat.choose (a - 1) (b + 1) = Nat.choose a (b + 1)
    ∧ U_final a * (U_final a)ᵀ = 1
    ∧ (U_final a 1 1) ^ 2 + (U_final a 1 4) ^ 2 = 1 := by
  have hxy := Uab_coeff_sq a b ha hb
  have hf := Ufinal_coeff_sq a ha
  have hpascal : Nat.choose (a - 1) b + Nat.choose (a - 1) (b + 1)
      = Nat.choose a (b + 1) := by
    obtain ⟨c, hc⟩ : ∃ c, a = c + 1 := ⟨a - 1, by omega⟩
    subst hc
    simp only [Nat.add_sub_cancel]
    exact (Nat.choose_succ_succ c b).symm
  refine ⟨blockMat_sym_orthog _ _ hxy, ?_, hpascal,
    blockMat_rot_orthog _ _ hf, ?_⟩
  · simpa [U_ab, blockMat] using hxy
  · simpa [U_final, blockMat] using hf

/-- Witness for c1_U_matrices_orthogonal at a = 2, b = 1. -/
theorem c1_U_matrices_orthogonal_witness :
    (1 ≤ 2 ∧ 1 ≤ 2 - 1)
    ∧ (U_ab 2 1 * (U_ab 2 1)ᵀ = 1
      ∧ (U_ab 2 1 2 2) ^ 2 + (U_ab 2 1 2 5) ^ 2 = 1
      ∧ Nat.choose (2 - 1) 1 + Nat.choose (2 - 1) (1 + 1) = Nat.choose 2 (1 + 1)
      ∧ U_final 2 * (U_final 2)ᵀ = 1
      ∧ (U_final 2 1 1) ^ 2 + (U_final 2 1 4) ^ 2 = 1) :=
  ⟨⟨by decide, by decide⟩, c1_U_matrices_orthogonal 2 1 (by decide) (by decide)⟩

/-- Gate vocabulary of the compression circuit: a CNOT written
control(q[c], X(q[t])), a controlled Hadamard control(q[c], H(q[t])), an
8x8 unitary applied to the three qubits p1, p2, p3 through apply_matrix,
and a multi-controlled NOT through apply_MultiCNOT with its index list. -/
inductive Gate where
  | cx (c t : ℕ)
  | ch (c t : ℕ)
  | u3 (m : Matrix (Fin 8) (Fin 8) ℝ) (p1 p2 p3 : ℕ)
  | mcnot (idx : List ℕ)

/-- Fueled helper computing the binary digits of m, most significant
first, mirroring the Python string bin(m)[2:] (empty for m = 0). -/
def natBitsAux : ℕ → ℕ → List ℕ
  | 0, _ => []
  | fuel + 1, m => if m = 0 then [] else natBitsAux fuel (m / 2) ++ [m % 2]

/-- Binary digits of m, most significant first, as in bin(m)[2:]. -/
def natBits (m : ℕ) : List ℕ := natBitsAux m m

/-- Embedding of apply_Uab(a, q): for b in range(a-1), apply U_ab(a+1, b+1)
to qubits (b, b+1, a). -/
noncomputable def apply_Uab (a : ℕ) : List Gate :=
  (List.range (a - 1)).map fun b => Gate.u3 (U_ab (a + 1) (b + 1)) b (b + 1) a

/-- Embedding of apply_Uf(a, q): apply U_final(a+1) to qubits (0, a-1, a). -/
noncomputable def apply_Uf (a : ℕ) : List Gate :=
  [Gate.u3 (U_final (a + 1)) 0 (a - 1) a]

/-- Embedding of one iteration of the final loop of
symmetric_compression_algorithm at index k: for each position i of the
binary string of k+1 holding a 1-bit, a CNOT from qubit k to qubit
len-i-1, with those targets collected, reversed, k appended, and handed
to apply_MultiCNOT. -/
def finalStage (k : ℕ) : List Gate :=
  let bs := natBits (k + 1)
  let len := bs.length
  let tgts := (List.range len).filterMap fun i =>
    if bs.getD i 0 = 1 then some (len - i - 1) else none
  (tgts.map fun t => Gate.cx k t) ++ [Gate.mcnot (tgts.reverse ++ [k])]

/-- Embedding of symmetric_compression_algorithm on a register of n
qubits: the initial two controlled gates, then for i in range(2, n) the
U_ab sweep, the U_final gate and the trailing CNOT from qubit i to
qubit i-1, then the final conversion loop. -/
noncomputable def symmetric_compression_algorithm (n : ℕ) : List Gate :=
  [Gate.cx 1 0, Gate.ch 0 1]
    ++ ((List.range' 2 (n - 2)).flatMap fun i =>
          apply_Uab i ++ apply_Uf i ++ [Gate.cx i (i - 1)])
    ++ (List.range' 2 (n - 2)).flatMap finalStage

/-- Unitary literal of apply_matrix_expanded___0 in the qmod file. -/
noncomputable def qmodM0 : Matrix (Fin 8) (Fin 8) ℝ := Matrix.of
  ![![1, 0, 0, 0, 0, 0, 0, 0],
    ![0, 1, 0, 0, 0, 0, 0, 0],
    ![0, 0, 0.5774, 0, 0, 0.8165, 0, 0],
    ![0, 0, 0, 1, 0, 0, 0, 0],
    ![0, 0, 0, 0, 1, 0, 0, 0],
    ![0, 0, 0.8165, 0, 0, -0.5774, 0, 0],
    ![0, 0, 0, 0, 0, 0, 1, 0],
    ![0, 0, 0, 0, 0, 0, 0, 1]]

/-- Unitary literal of apply_matrix_expanded___1 in the qmod file. -/
noncomputable def qmodM1 : Matrix (Fin 8) (Fin 8) ℝ := Matrix.of
  ![![1, 0, 0, 0, 0, 0, 0, 0],
    ![0, 0.8165, 0, 0, 0.5774, 0, 0, 0],
    ![0, 0, 1, 0, 0, 0, 0, 0],
    ![0, 0, 0, 1, 0, 0, 0, 0],
    ![0, -0.5774, 0, 0, 0.8165, 0, 0, 0],
    ![0, 0, 0, 0, 0, 1, 0, 0],
    ![0, 0, 0, 0, 0, 0, 1, 0],
    ![0, 0, 0, 0, 0, 0, 0, 1]]

/-- Unitary literal of apply_matrix_expanded___2 in the qmod file. -/
noncomputable def qmodM2 : Matrix (Fin 8) (Fin 8) ℝ := Matrix.of
  ![![1, 0, 0, 0, 0, 0, 0, 0],
    ![0, 1, 0, 0, 0, 0, 0, 0],
    ![0, 0, 0.7071, 0, 0, 0.7071, 0, 0],
    ![0, 0, 0, 1, 0, 0, 0, 0],
    ![0, 0, 0, 0, 1, 0, 0, 0],
    ![0, 0, 0.7071, 0, 0, -0.7071, 0, 0],
    ![0, 0, 0, 0, 0, 0, 1, 0],
    ![0, 0, 0, 0, 0, 0, 0, 1]]

/-- Unitary literal of apply_matrix_expanded___3 in the qmod file. -/
noncomputable def qmodM3 : Matrix (Fin 8) (Fin 8) ℝ := Matrix.of
  ![![1, 0, 0, 0, 0, 0, 0, 0],
    ![0, 1, 0, 0, 0, 0, 0, 0],
    ![0, 0, 0.5, 0, 0, 0.866, 0, 0],
    ![0, 0, 0, 1, 0, 0, 0, 0],
    ![0, 0, 0, 0, 1, 0, 0, 0],
    ![0, 0, 0.866, 0, 0, -0.5, 0, 0],
    ![0, 0, 0, 0, 0, 0, 1, 0],
    ![0, 0, 0, 0, 0, 0, 0, 1]]

/-- Unitary literal of apply_matrix_expanded___4 in the qmod file. -/
noncomputable def qmodM4 : Matrix (Fin 8) (Fin 8) ℝ := Matrix.of
  ![![1, 0, 0, 0, 0, 0, 0, 0],
    ![0, 0.866, 0, 0, 0.5, 0, 0, 0],
    ![0, 0, 1, 0, 0, 0, 0, 0],
    ![0, 0, 0, 1, 0, 0, 0, 0],
    ![0, -0.5, 0, 0, 0.866, 0, 0, 0],
    ![0, 0, 0, 0, 0, 1, 0, 0],
    ![0, 0, 0, 0, 0, 0, 1, 0],
    ![0, 0, 0, 0, 0, 0, 0, 1]]

/-- Unitary literal of apply_matrix_expanded___5 in the qmod file. -/
noncomputable def qmodM5 : Matrix (Fin 8) (Fin 8) ℝ := Matrix.of
  ![![1, 0, 0, 0, 0, 0, 0, 0],
    ![0, 1, 0, 0, 0, 0, 0, 0],
    ![0, 0, 0.7746, 0, 0, 0.6325, 0, 0],
    ![0, 0, 0, 1, 0, 0, 0, 0],
    ![0, 0, 0, 0, 1, 0, 0, 0],
    ![0, 0, 0.6325, 0, 0, -0.7746, 0, 0],
    ![0, 0, 0, 0, 0, 0, 1, 0],
    ![0, 0, 0, 0, 0, 0, 0, 1]]

/-- Unitary literal of apply_matrix_expanded___6 in the qmod file. -/
noncomputable def qmodM6 : Matrix (Fin 8) (Fin 8) ℝ := Matrix.of
  ![![1, 0, 0, 0, 0, 0, 0, 0],
    ![0, 1, 0, 0, 0, 0, 0, 0],
    ![0, 0, 0.6325, 0, 0, 0.7746, 0, 0],
    ![0, 0, 0, 1, 0, 0, 0, 0],
    ![0, 0, 0, 0, 1, 0, 0, 0],
    ![0, 0, 0.7746, 0, 0, -0.6325, 0, 0],
    ![0, 0, 0, 0, 0, 0, 1, 0],
    ![0, 0, 0, 0, 0, 0, 0, 1]]

/-- Unitary literal of apply_matrix_expanded___7 in the qmod file. -/
noncomputable def qmodM7 : Matrix (Fin 8) (Fin 8) ℝ := Matrix.of
  ![![1, 0, 0, 0, 0, 0, 0, 0],
    ![0, 1, 0, 0, 0, 0, 0, 0],
    ![0, 0, 0.4472, 0, 0, 0.8944, 0, 0],
    ![0, 0, 0, 1, 0, 0, 0, 0],
    ![0, 0, 0, 0, 1, 0, 0, 0],
    ![0, 0, 0.8944, 0, 0, -0.4472, 0, 0],
    ![0, 0, 0, 0, 0, 0, 1, 0],
    ![0, 0, 0, 0, 0, 0, 0, 1]]

/-- Unitary literal of apply_matrix_expanded___8 in the qmod file. -/
noncomputable def qmodM8 : Matrix (Fin 8) (Fin 8) ℝ := Matrix.of
  ![![1, 0, 0, 0, 0, 0, 0, 0],
    ![0, 0.8944, 0, 0, 0.4472, 0, 0, 0],
    ![0, 0, 1, 0, 0, 0, 0, 0],
    ![0, 0, 0, 1, 0, 0, 0, 0],
    ![0, -0.4472, 0, 0, 0.8944, 0, 0, 0],
    ![0, 0, 0, 0, 0, 1, 0, 0],
    ![0, 0, 0, 0, 0, 0, 1, 0],
    ![0, 0, 0, 0, 0, 0, 0, 1]]

/-- Gate sequence of symmetric_compression_algorithm_expanded___0 in the
qmod file, with the bodies of the called apply_Uab_expanded,
apply_Uf_expanded, apply_matrix_expanded and apply_MultiCNOT_expanded
functions inlined in call order. -/
noncomputable def symmetric_compression_algorithm_expanded___0 : List Gate :=
  [Gate.cx 1 0, Gate.ch 0 1,
   Gate.u3 qmodM0 0 1 2,
   Gate.u3 qmodM1 0 1 2,
   Gate.cx 2 1,
   Gate.u3 qmodM2 0 1 3,
   Gate.u3 qmodM3 1 2 3,
   Gate.u3 qmodM4 0 2 3,
   Gate.cx 3 2,
   Gate.u3 qmodM5 0 1 4,
   Gate.u3 qmodM6 1 2 4,
   Gate.u3 qmodM7 2 3 4,
   Gate.u3 qmodM8 0 3 4,
   Gate.cx 4 3,
   Gate.cx 2 1, Gate.cx 2 0, Gate.mcnot [0, 1, 2],
   Gate.cx 3 2, Gate.mcnot [2, 3],
   Gate.cx 4 2, Gate.cx 4 0, Gate.mcnot [0, 2, 4]]

/-- Two gates agree up to 4-decimal rounding: identical kind and qubit
indices, and unitary entries within 1/20000 of each other. -/
def gateApprox : Gate → Gate → Prop
  | Gate.cx c t, Gate.cx c' t' => c = c' ∧ t = t'
  | Gate.ch c t, Gate.ch c' t' => c = c' ∧ t = t'
  | Gate.u3 m p1 p2 p3, Gate.u3 m' q1 q2 q3 =>
      (∀ i j, |m i j - m' i j| ≤ 1 / 20000) ∧ p1 = q1 ∧ p2 = q2 ∧ p3 = q3
  | Gate.mcnot l, Gate.mcnot l' => l = l'
  | _, _ => False

lemma sqrt_ratio_near (c1 c2 v ε : ℝ) (h1 : 0 ≤ c1) (h2 : 0 < c2)
    (hv : 0 ≤ v - ε) (hε : 0 ≤ ε)
    (hlo : (v - ε) ^ 2 * c2 ≤ c1) (hhi : c1 ≤ (v + ε) ^ 2 * c2) :
    |Real.sqrt c1 / Real.sqrt c2 - v| ≤ ε := by
  rw [← Real.sqrt_div h1, abs_le]
  constructor
  · have h : v - ε ≤ Real.sqrt (c1 / c2) := by
      rw [show v - ε = Real.sqrt ((v - ε) ^ 2) from (Real.sqrt_sq hv).symm]
      exact Real.sqrt_le_sqrt ((le_div_iff₀ h2).mpr hlo)
    linarith
  · have h : Real.sqrt (c1 / c2) ≤ v + ε := by
      rw [show v + ε = Real.sqrt ((v + ε) ^ 2) from
        (Real.sqrt_sq (by linarith)).symm]
      exact Real.sqrt_le_sqrt ((div_le_iff₀ h2).mpr hhi)
    linarith

lemma hb_1_3 : |Real.sqrt 1 / Real.sqrt 3 - 0.5774| ≤ 1 / 20000 := by
  apply sqrt_ratio_near <;> norm_num

lemma hb_2_3 : |Real.sqrt 2 / Real.sqrt 3 - 0.8165| ≤ 1 / 20000 := by
  apply sqrt_ratio_near <;> norm_num

lemma hb_3_6 : |Real.sqrt 3 / Real.sqrt 6 - 0.7071| ≤ 1 / 20000 := by
  apply sqrt_ratio_near <;> norm_num

lemma hb_1_4 : |Real.sqrt 1 / Real.sqrt 4 - 0.5| ≤ 1 / 20000 := by
  apply sqrt_ratio_near <;> norm_num

lemma hb_3_4 : |Real.sqrt 3 / Real.sqrt 4 - 0.866| ≤ 1 / 20000 := by
  apply sqrt_ratio_near <;> norm_num

lemma hb_6_10 : |Real.sqrt 6 / Real.sqrt 10 - 0.7746| ≤ 1 / 20000 := by
  apply sqrt_ratio_near <;> norm_num

lemma hb_4_10 : |Real.sqrt 4 / Real.sqrt 10 - 0.6325| ≤ 1 / 20000 := by
  apply sqrt_ratio_near <;> norm_num

lemma hb_1_5 : |Real.sqrt 1 / Real.sqrt 5 - 0.4472| ≤ 1 / 20000 := by
  apply sqrt_ratio_near <;> norm_num

lemma hb_4_5 : |Real.sqrt 4 / Real.sqrt 5 - 0.8944| ≤ 1 / 20000 := by
  apply sqrt_ratio_near <;> norm_num

lemma abs_neg_sub_neg_le {x y ε : ℝ} (h : |x - y| ≤ ε) : |-x - -y| ≤ ε := by
  rw [show -x - -y = -(x - y) by ring, abs_neg]
  exact h

lemma blockMat_entry_approx (r s : Fin 8) (d11 d12 d21 d22 e11 e12 e21 e22 ε : ℝ)
    (hε : 0 ≤ ε) (h11 : |d11 - e11| ≤ ε) (h12 : |d12 - e12| ≤ ε)
    (h21 : |d21 - e21| ≤ ε) (h22 : |d22 - e22| ≤ ε) :
    ∀ i j, |blockMat r s d11 d12 d21 d22 i j - blockMat r s e11 e12 e21 e22 i j| ≤ ε := by
  intro i j
  simp only [blockMat, Matrix.of_apply]
  split_ifs
  · exact h11
  · exact h12
  · exact h21
  · exact h22
  · simpa using hε
  · simpa using hε

lemma hbf_3 : |1 / Real.sqrt 3 - 0.5774| ≤ 1 / 20000 := by
  have h := hb_1_3
  rwa [Real.sqrt_one] at h

lemma hbf_4 : |1 / Real.sqrt 4 - 0.5| ≤ 1 / 20000 := by
  have h := hb_1_4
  rwa [Real.sqrt_one] at h

lemma hbf_5 : |1 / Real.sqrt 5 - 0.4472| ≤ 1 / 20000 := by
  have h := hb_1_5
  rwa [Real.sqrt_one] at h

lemma approx_M0 : ∀ i j, |U_ab 3 1 i j - qmodM0 i j| ≤ 1 / 20000 := by
  have hU : U_ab 3 1 = blockMat 2 5 (Real.sqrt 1 / Real.sqrt 3)
      (Real.sqrt 2 / Real.sqrt 3) (Real.sqrt 2 / Real.sqrt 3)
      (-(Real.sqrt 1 / Real.sqrt 3)) := by
    unfold U_ab
    norm_num [show Nat.choose 2 2 = 1 by decide, show Nat.choose 3 2 = 3 by decide,
      show Nat.choose 2 1 = 2 by decide]
  have hQ : qmodM0 = blockMat 2 5 (0.5774 : ℝ) 0.8165 0.8165 (-0.5774) := by
    ext i j; fin_cases i <;> fin_cases j <;> rfl
  rw [hU, hQ]
  exact blockMat_entry_approx 2 5 _ _ _ _ _ _ _ _ _ (by norm_num)
    hb_1_3 hb_2_3 hb_2_3 (abs_neg_sub_neg_le hb_1_3)

lemma approx_M1 : ∀ i j, |U_final 3 i j - qmodM1 i j| ≤ 1 / 20000 := by
  have hU : U_final 3 = blockMat 1 4 (Real.sqrt 2 / Real.sqrt 3) (1 / Real.sqrt 3)
      (-(1 / Real.sqrt 3)) (Real.sqrt 2 / Real.sqrt 3) := by
    unfold U_final
    norm_num
  have hQ : qmodM1 = blockMat 1 4 (0.8165 : ℝ) 0.5774 (-0.5774) 0.8165 := by
    ext i j; fin_cases i <;> fin_cases j <;> rfl
  rw [hU, hQ]
  exact blockMat_entry_approx 1 4 _ _ _ _ _ _ _ _ _ (by norm_num)
    hb_2_3 hbf_3 (abs_neg_sub_neg_le hbf_3) hb_2_3

lemma approx_M2 : ∀ i j, |U_ab 4 1 i j - qmodM2 i j| ≤ 1 / 20000 := by
  have hU : U_ab 4 1 = blockMat 2 5 (Real.sqrt 3 / Real.sqrt 6)
      (Real.sqrt 3 / Real.sqrt 6) (Real.sqrt 3 / Real.sqrt 6)
      (-(Real.sqrt 3 / Real.sqrt 6)) := by
    unfold U_ab
    norm_num [show Nat.choose 3 2 = 3 by decide, show Nat.choose 4 2 = 6 by decide,
      show Nat.choose 3 1 = 3 by decide]
  have hQ : qmodM2 = blockMat 2 5 (0.7071 : ℝ) 0.7071 0.7071 (-0.7071) := by
    ext i j; fin_cases i <;> fin_cases j <;> rfl
  rw [hU, hQ]
  exact blockMat_entry_approx 2 5 _ _ _ _ _ _ _ _ _ (by norm_num)
    hb_3_6 hb_3_6 hb_3_6 (abs_neg_sub_neg_le hb_3_6)

lemma approx_M3 : ∀ i j, |U_ab 4 2 i j - qmodM3 i j| ≤ 1 / 20000 := by
  have hU : U_ab 4 2 = blockMat 2 5 (Real.sqrt 1 / Real.sqrt 4)
      (Real.sqrt 3 / Real.sqrt 4) (Real.sqrt 3 / Real.sqrt 4)
      (-(Real.sqrt 1 / Real.sqrt 4)) := by
    unfold U_ab
    norm_num [show Nat.choose 3 3 = 1 by decide, show Nat.choose 4 3 = 4 by decide,
      show Nat.choose 3 2 = 3 by decide]
  have hQ : qmodM3 = blockMat 2 5 (0.5 : ℝ) 0.866 0.866 (-0.5) := by
    ext i j; fin_cases i <;> fin_cases j <;> rfl
  rw [hU, hQ]
  exact blockMat_entry_approx 2 5 _ _ _ _ _ _ _ _ _ (by norm_num)
    hb_1_4 hb_3_4 hb_3_4 (abs_neg_sub_neg_le hb_1_4)

lemma approx_M4 : ∀ i j, |U_final 4 i j - qmodM4 i j| ≤ 1 / 20000 := by
  have hU : U_final 4 = blockMat 1 4 (Real.sqrt 3 / Real.sqrt 4) (1 / Real.sqrt 4)
      (-(1 / Real.sqrt 4)) (Real.sqrt 3 / Real.sqrt 4) := by
    unfold U_final
    norm_num
  have hQ : qmodM4 = blockMat 1 4 (0.866 : ℝ) 0.5 (-0.5) 0.866 := by
    ext i j; fin_cases i <;> fin_cases j <;> rfl
  rw [hU, hQ]
  exact blockMat_entry_approx 1 4 _ _ _ _ _ _ _ _ _ (by norm_num)
    hb_3_4 hbf_4 (abs_neg_sub_neg_le hbf_4) hb_3_4

lemma approx_M5 : ∀ i j, |U_ab 5 1 i j - qmodM5 i j| ≤ 1 / 20000 := by
  have hU : U_ab 5 1 = blockMat 2 5 (Real.sqrt 6 / Real.sqrt 10)
      (Real.sqrt 4 / Real.sqrt 10) (Real.sqrt 4 / Real.sqrt 10)
      (-(Real.sqrt 6 / Real.sqrt 10)) := by
    unfold U_ab
    norm_num [show Nat.choose 4 2 = 6 by decide, show Nat.choose 5 2 = 10 by decide,
      show Nat.choose 4 1 = 4 by decide]
  have hQ : qmodM5 = blockMat 2 5 (0.7746 : ℝ) 0.6325 0.6325 (-0.7746) := by
    ext i j; fin_cases i <;> fin_cases j <;> rfl
  rw [hU, hQ]
  exact blockMat_entry_approx 2 5 _ _ _ _ _ _ _ _ _ (by norm_num)
    hb_6_10 hb_4_10 hb_4_10 (abs_neg_sub_neg_le hb_6_10)

lemma approx_M6 : ∀ i j, |U_ab 5 2 i j - qmodM6 i j| ≤ 1 / 20000 := by
  have hU : U_ab 5 2 = blockMat 2 5 (Real.sqrt 4 / Real.sqrt 10)
      (Real.sqrt 6 / Real.sqrt 10) (Real.sqrt 6 / Real.sqrt 10)
      (-(Real.sqrt 4 / Real.sqrt 10)) := by
    unfold U_ab
    norm_num [show Nat.choose 4 3 = 4 by decide, show Nat.choose 5 3 = 10 by decide,
      show Nat.choose 4 2 = 6 by decide]
  have hQ : qmodM6 = blockMat 2 5 (0.6325 : ℝ) 0.7746 0.7746 (-0.6325) := by
    ext i j; fin_cases i <;> fin_cases j <;> rfl
  rw [hU, hQ]
  exact blockMat_entry_approx 2 5 _ _ _ _ _ _ _ _ _ (by norm_num)
    hb_4_10 hb_6_10 hb_6_10 (abs_neg_sub_neg_le hb_4_10)

lemma approx_M7 : ∀ i j, |U_ab 5 3 i j - qmodM7 i j| ≤ 1 / 20000 := by
  have hU : U_ab 5 3 = blockMat 2 5 (Real.sqrt 1 / Real.sqrt 5)
      (Real.sqrt 4 / Real.sqrt 5) (Real.sqrt 4 / Real.sqrt 5)
      (-(Real.sqrt 1 / Real.sqrt 5)) := by
    unfold U_ab
    norm_num [show Nat.choose 4 4 = 1 by decide, show Nat.choose 5 4 = 5 by decide,
      show Nat.choose 4 3 = 4 by decide]
  have hQ : qmodM7 = blockMat 2 5 (0.4472 : ℝ) 0.8944 0.8944 (-0.4472) := by
    ext i j; fin_cases i <;> fin_cases j <;> rfl
  rw [hU, hQ]
  exact blockMat_entry_approx 2 5 _ _ _ _ _ _ _ _ _ (by norm_num)
    hb_1_5 hb_4_5 hb_4_5 (abs_neg_sub_neg_le hb_1_5)

lemma approx_M8 : ∀ i j, |U_final 5 i j - qmodM8 i j| ≤ 1 / 20000 := by
  have hU : U_final 5 = blockMat 1 4 (Real.sqrt 4 / Real.sqrt 5) (1 / Real.sqrt 5)
      (-(1 / Real.sqrt 5)) (Real.sqrt 4 / Real.sqrt 5) := by
    unfold U_final
    norm_num
  have hQ : qmodM8 = blockMat 1 4 (0.8944 : ℝ) 0.4472 (-0.4472) 0.8944 := by
    ext i j; fin_cases i <;> fin_cases j <;> rfl
  rw [hU, hQ]
  exact blockMat_entry_approx 1 4 _ _ _ _ _ _ _ _ _ (by norm_num)
    hb_4_5 hbf_5 (abs_neg_sub_neg_le hbf_5) hb_4_5

/-- C2: the expanded qmod model equals the generative notebook program
instantiated at a 5-qubit register: the gate sequence of
symmetric_compression_algorithm_expanded___0 matches, gate for gate and
qubit index for qubit index, the sequence symmetric_compression_algorithm
emits for q_array of length 5, with every 4-decimal unitary literal of
the qmod file within 1/20000 (that is, within 4-decimal rounding) of
the corresponding U_ab(a+1, b+1) or U_final(a+1) matrix, applied to the
qubit triples (b, b+1, a) respectively (0, a-1, a). -/
theorem c2_expanded_matches_generative :
    List.Forall₂ gateApprox (symmetric_compression_algorithm 5)
      symmetric_compression_algorithm_expanded___0 := by
  have hgen : symmetric_compression_algorithm 5 =
      [Gate.cx 1 0, Gate.ch 0 1,
       Gate.u3 (U_ab 3 1) 0 1 2,
       Gate.u3 (U_final 3) 0 1 2,
       Gate.cx 2 1,
       Gate.u3 (U_ab 4 1) 0 1 3,
       Gate.u3 (U_ab 4 2) 1 2 3,
       Gate.u3 (U_final 4) 0 2 3,
       Gate.cx 3 2,
       Gate.u3 (U_ab 5 1) 0 1 4,
       Gate.u3 (U_ab 5 2) 1 2 4,
       Gate.u3 (U_ab 5 3) 2 3 4,
       Gate.u3 (U_final 5) 0 3 4,
       Gate.cx 4 3,
       Gate.cx 2 1, Gate.cx 2 0, Gate.mcnot [0, 1, 2],
       Gate.cx 3 2, Gate.mcnot [2, 3],
       Gate.cx 4 2, Gate.cx 4 0, Gate.mcnot [0, 2, 4]] := rfl
  rw [hgen]
  unfold symmetric_compression_algorithm_expanded___0
  exact .cons ⟨rfl, rfl⟩ (.cons ⟨rfl, rfl⟩
    (.cons ⟨approx_M0, rfl, rfl, rfl⟩ (.cons ⟨approx_M1, rfl, rfl, rfl⟩
    (.cons ⟨rfl, rfl⟩ (.cons ⟨approx_M2, rfl, rfl, rfl⟩
    (.cons ⟨approx_M3, rfl, rfl, rfl⟩ (.cons ⟨approx_M4, rfl, rfl, rfl⟩
    (.cons ⟨rfl, rfl⟩ (.cons ⟨approx_M5, rfl, rfl, rfl⟩
    (.cons ⟨approx_M6, rfl, rfl, rfl⟩ (.cons ⟨approx_M7, rfl, rfl, rfl⟩
    (.cons ⟨approx_M8, rfl, rfl, rfl⟩ (.cons ⟨rfl, rfl⟩
    (.cons ⟨rfl, rfl⟩ (.cons ⟨rfl, rfl⟩ (.cons rfl
    (.cons ⟨rfl, rfl⟩ (.cons rfl
    (.cons ⟨rfl, rfl⟩ (.cons ⟨rfl, rfl⟩ (.cons rfl .nil)))))))))))))))))))))

/-- Index of the 8-dimensional unitary basis spanned by three qubits,
with the first bound qubit of temp_array as the most significant bit. -/
def enc3 (a b c : Bool) : Fin 8 :=
  ⟨4 * a.toNat + 2 * b.toNat + c.toNat, by cases a <;> cases b <;> cases c <;> decide⟩

/-- Rebinding step of apply_matrix: writing the three bits of the basis
index t back into positions p1, p2, p3 of the 5-qubit basis state s. -/
def writeBits (p1 p2 p3 : Fin 5) (t : Fin 8) (s : Fin 5 → Bool) : Fin 5 → Bool :=
  fun i =>
    if i = p1 then (t : ℕ).testBit 2
    else if i = p2 then (t : ℕ).testBit 1
    else if i = p3 then (t : ℕ).testBit 0
    else s i

/-- Shallow embedding of apply_matrix(matrix, q, p1, p2, p3) on a 5-qubit
register, acting on amplitude functions over computational basis states:
the register is rebound so that qubits p1, p2, p3 form temp_array, the
8x8 unitary acts there while the remaining bound qubits are untouched,
and the original array is rebound. -/
noncomputable def apply_matrix (m : Matrix (Fin 8) (Fin 8) ℝ) (p1 p2 p3 : Fin 5)
    (v : (Fin 5 → Bool) → ℝ) : (Fin 5 → Bool) → ℝ :=
  fun s => ∑ t : Fin 8, m (enc3 (s p1) (s p2) (s p3)) t * v (writeBits p1 p2 p3 t s)

/-- The operator stated by the claim: the 8x8 unitary applied to the three
selected qubits tensored with the identity on the remaining qubits, in the
original qubit ordering of the register. -/
noncomputable def tensorIdOp (m : Matrix (Fin 8) (Fin 8) ℝ) (p1 p2 p3 : Fin 5) :
    Matrix (Fin 5 → Bool) (Fin 5 → Bool) ℝ :=
  Matrix.of fun s' s =>
    if ∀ i, i ≠ p1 → i ≠ p2 → i ≠ p3 → s' i = s i
    then m (enc3 (s' p1) (s' p2) (s' p3)) (enc3 (s p1) (s p2) (s p3)) else 0

/-- Computational basis amplitude function concentrated on s. -/
def basis (s : Fin 5 → Bool) : (Fin 5 → Bool) → ℝ :=
  fun u => if u = s then 1 else 0

/-- Shallow embedding of apply_MultiCNOT(q, controls) on basis states:
the qubits listed in idx are rebound to temp_array, a NOT on the last of
them is controlled on all the earlier ones, and the array is rebound. -/
def apply_MultiCNOT (idx : List (Fin 5)) (s : Fin 5 → Bool) : Fin 5 → Bool :=
  fun i =>
    if idx.getLast? = some i ∧ (∀ c ∈ idx.dropLast, s c = true)
    then !(s i) else s i

lemma enc3_testBit :
    ∀ t : Fin 8, enc3 ((t : ℕ).testBit 2) ((t : ℕ).testBit 1) ((t : ℕ).testBit 0) = t := by
  decide

lemma testBit_two_enc3 (a b c : Bool) : ((enc3 a b c : ℕ)).testBit 2 = a := by
  cases a <;> cases b <;> cases c <;> decide

lemma testBit_one_enc3 (a b c : Bool) : ((enc3 a b c : ℕ)).testBit 1 = b := by
  cases a <;> cases b <;> cases c <;> decide

lemma testBit_zero_enc3 (a b c : Bool) : ((enc3 a b c : ℕ)).testBit 0 = c := by
  cases a <;> cases b <;> cases c <;> decide

lemma writeBits_eq_iff (p1 p2 p3 : Fin 5) (h12 : p1 ≠ p2) (h13 : p1 ≠ p3)
    (h23 : p2 ≠ p3) (t : Fin 8) (s' s : Fin 5 → Bool) :
    writeBits p1 p2 p3 t s' = s ↔
      (t = enc3 (s p1) (s p2) (s p3)
        ∧ ∀ i, i ≠ p1 → i ≠ p2 → i ≠ p3 → s' i = s i) := by
  constructor
  · intro h
    have hp1 := congrFun h p1
    have hp2 := congrFun h p2
    have hp3 := congrFun h p3
    simp only [writeBits, if_pos rfl] at hp1
    rw [show (writeBits p1 p2 p3 t s' p2) = (t : ℕ).testBit 1 by
      simp [writeBits, Ne.symm h12]] at hp2
    rw [show (writeBits p1 p2 p3 t s' p3) = (t : ℕ).testBit 0 by
      simp [writeBits, Ne.symm h13, Ne.symm h23]] at hp3
    refine ⟨?_, ?_⟩
    · rw [← hp1, ← hp2, ← hp3]
      exact (enc3_testBit t).symm
    · intro i hi1 hi2 hi3
      have hi := congrFun h i
      simpa [writeBits, hi1, hi2, hi3] using hi
  · rintro ⟨rfl, hoff⟩
    funext i
    simp only [writeBits]
    by_cases hi1 : i = p1
    · rw [if_pos hi1, testBit_two_enc3, hi1]
    · by_cases hi2 : i = p2
      · rw [if_neg hi1, if_pos hi2, testBit_one_enc3, hi2]
      · by_cases hi3 : i = p3
        · rw [if_neg hi1, if_neg hi2, if_pos hi3, testBit_zero_enc3, hi3]
        · rw [if_neg hi1, if_neg hi2, if_neg hi3]
          exact hoff i hi1 hi2 hi3

lemma mem_of_getLastEq {α : Type} {l : List α} {a : α}
    (h : l.getLast? = some a) : a ∈ l := by
  have ha : a ∈ l.getLast? := by simp [Option.mem_def, h]
  obtain ⟨hne, rfl⟩ := List.mem_getLast?_eq_getLast ha
  exact List.getLast_mem hne

/-- C5: for distinct in-range indices p1, p2, p3, the operator realized by
apply_matrix on the 5-qubit register is exactly the 8x8 unitary applied to
the three selected qubits tensored with the identity on the remaining
qubits, in the original qubit ordering; and apply_MultiCNOT changes at
most the last listed qubit, leaving every qubit not listed among its
indices unchanged. -/
theorem c5_apply_matrix_frame (m : Matrix (Fin 8) (Fin 8) ℝ) (p1 p2 p3 : Fin 5)
    (h12 : p1 ≠ p2) (h13 : p1 ≠ p3) (h23 : p2 ≠ p3) :
    (∀ s' s : Fin 5 → Bool,
      apply_matrix m p1 p2 p3 (basis s) s' = tensorIdOp m p1 p2 p3 s' s)
    ∧ (∀ (idx : List (Fin 5)) (s : Fin 5 → Bool) (i : Fin 5),
        i ∉ idx → apply_MultiCNOT idx s i = s i)
    ∧ (∀ (idx : List (Fin 5)) (s : Fin 5 → Bool) (tgt i : Fin 5),
        idx.getLast? = some tgt → i ≠ tgt → apply_MultiCNOT idx s i = s i) := by
  refine ⟨?_, ?_, ?_⟩
  · intro s' s
    unfold apply_matrix basis tensorIdOp
    by_cases hC : ∀ i, i ≠ p1 → i ≠ p2 → i ≠ p3 → s' i = s i
    · simp only [Matrix.of_apply, if_pos hC]
      have ht : ∀ t : Fin 8, (writeBits p1 p2 p3 t s' = s) = (t = enc3 (s p1) (s p2) (s p3)) := by
        intro t
        rw [writeBits_eq_iff p1 p2 p3 h12 h13 h23, and_iff_left hC]
      simp only [ht, mul_ite, mul_one, mul_zero]
      simp [Finset.sum_ite_eq']
    · simp only [Matrix.of_apply, if_neg hC]
      apply Finset.sum_eq_zero
      intro t _
      have hne : writeBits p1 p2 p3 t s' ≠ s := by
        intro h
        exact hC ((writeBits_eq_iff p1 p2 p3 h12 h13 h23 t s' s).mp h).2
      simp [hne]
  · intro idx s i hi
    unfold apply_MultiCNOT
    rw [if_neg]
    rintro ⟨hlast, -⟩
    exact hi (mem_of_getLastEq hlast)
  · intro idx s tgt i hlast hi
    unfold apply_MultiCNOT
    rw [if_neg]
    rintro ⟨hlast2, -⟩
    rw [hlast] at hlast2
    exact hi (Option.some_injective _ hlast2).symm

/-- Witness for c5_apply_matrix_frame at the identity unitary applied to
the qubit triple (0, 1, 2), the triple of apply_matrix_expanded___0. -/
theorem c5_apply_matrix_frame_witness :
    ((0 : Fin 5) ≠ 1 ∧ (0 : Fin 5) ≠ 2 ∧ (1 : Fin 5) ≠ 2)
    ∧ ((∀ s' s : Fin 5 → Bool,
        apply_matrix 1 0 1 2 (basis s) s' = tensorIdOp 1 0 1 2 s' s)
      ∧ (∀ (idx : List (Fin 5)) (s : Fin 5 → Bool) (i : Fin 5),
          i ∉ idx → apply_MultiCNOT idx s i = s i)
      ∧ (∀ (idx : List (Fin 5)) (s : Fin 5 → Bool) (tgt i : Fin 5),
          idx.getLast? = some tgt → i ≠ tgt → apply_MultiCNOT idx s i = s i)) :=
  ⟨⟨by decide, by decide, by decide⟩,
    c5_apply_matrix_frame 1 0 1 2 (by decide) (by decide) (by decide)⟩

end QCompress

namespace RepoSurface

/-- The five-function platform surface named by the spec. -/
def platformSurface : List String :=
  ["create_model", "synthesize", "execute", "show", "save"]

/-- Platform entry points invoked by the compression notebook, in call
order: create_model(main), synthesize(model1), execute(quantum_program1),
create_model(main), write_qmod(qmod, ...). -/
def compressionNotebookCalls : List String :=
  ["create_model", "synthesize", "execute", "create_model", "write_qmod"]

/-- Platform entry points invoked in the cscope block of the rainbow
options qmod file (unnamed part_000): iqae(...) and save(...). -/
def rainbowCscopeCalls : List String := ["iqae", "save"]

/-- Platform entry points invoked by the VQE molecule-eigensolver
notebook (unnamed part_001), in call order. -/
def vqeNotebookCalls : List String :=
  ["construct_chemistry_model", "set_execution_preferences", "synthesize", "show",
   "construct_chemistry_model", "set_execution_preferences", "synthesize", "show",
   "execute"]

/-- Platform entry points invoked by the arithmetic-expressions notebook
(unnamed part_002), in call order. -/
def arithmeticNotebookCalls : List String :=
  ["create_model", "set_preferences", "set_constraints", "write_qmod", "synthesize",
   "show", "execute", "set_constraints", "write_qmod", "synthesize", "show", "execute"]

/-- Platform entry points invoked by the quantum-counting notebook, in
call order across its three executed models. -/
def quantumCountingNotebookCalls : List String :=
  ["create_model", "synthesize", "show", "execute",
   "iqae", "save", "create_model", "synthesize", "show", "execute",
   "create_model", "update_execution_preferences", "write_qmod",
   "synthesize", "show", "execute"]

/-- Per-source-file platform call lists of the repository; pure qmod
model files invoke no platform entry point. -/
def repoPlatformCalls : List (String × List String) :=
  [("quantum_compression_algorithm_for_symmetric_states.ipynb", compressionNotebookCalls),
   ("quantum_compression_algorithm_for_symmetric_states.qmod", []),
   ("unnamed/part_000", rainbowCscopeCalls),
   ("unnamed/part_001", vqeNotebookCalls),
   ("unnamed/part_002", arithmeticNotebookCalls),
   ("unnamed/part_003", []),
   ("unnamed/part_004", []),
   ("simon_shallow_example.qmod", []),
   ("electric_grid_optimization.qmod", []),
   ("quantum_counting.ipynb", quantumCountingNotebookCalls)]

/-- C4 counterexample: the repository does invoke the platform through
entry points other than the five named ones; for instance part_002 calls
set_constraints, which is not among them. -/
theorem c4_counterexample :
    ¬ (∀ p ∈ repoPlatformCalls, ∀ c ∈ p.2, c ∈ platformSurface) := by
  intro h
  have hmem : ("unnamed/part_002", arithmeticNotebookCalls) ∈ repoPlatformCalls := by
    simp [repoPlatformCalls]
  have hc : "set_constraints" ∈ arithmeticNotebookCalls := by
    simp [arithmeticNotebookCalls]
  have := h _ hmem _ hc
  simp [platformSurface] at this

/-- C4 amended: every platform interaction of repository code goes
through the five named functions together with the model-construction
and model-transformation entry points write_qmod, set_constraints,
set_preferences, set_execution_preferences, update_execution_preferences,
construct_chemistry_model and the classical execution primitive iqae. -/
theorem c4_amended_call_surface :
    ∀ p ∈ repoPlatformCalls, ∀ c ∈ p.2,
      c ∈ platformSurface ++
        ["write_qmod", "set_constraints", "set_preferences",
         "set_execution_preferences", "update_execution_preferences",
         "construct_chemistry_model", "iqae"] := by
  decide

/-- Witness for c4_amended_call_surface at the arithmetic notebook and
its set_constraints call. -/
theorem c4_amended_call_surface_witness :
    (("unnamed/part_002", arithmeticNotebookCalls) ∈ repoPlatformCalls
      ∧ "set_constraints" ∈ arithmeticNotebookCalls)
    ∧ "set_constraints" ∈ platformSurface ++
        ["write_qmod", "set_constraints", "set_preferences",
         "set_execution_preferences", "update_execution_preferences",
         "construct_chemistry_model", "iqae"] :=
  ⟨⟨by decide, by decide⟩,
    c4_amended_call_surface ("unnamed/part_002", arithmeticNotebookCalls)
      (by decide) "set_constraints" (by decide)⟩

/-- One platform interaction in a notebook: binding a fresh model,
transforming a model into a model, synthesizing a model into a program,
executing a program, or showing a program; anything else is other. -/
inductive PlatformEvent where
  | model (dst : String)
  | transform (dst src : String)
  | synth (dst src : String)
  | exec (arg : String)
  | showProg (arg : String)
  | other

/-- Checks that along a trace every exec names a variable whose current
binding came from a synthesize call; model or transform events
invalidate a binding of the same name. -/
def execAfterSynth : List String → List PlatformEvent → Bool
  | _, [] => true
  | synthed, PlatformEvent.synth d _ :: rest => execAfterSynth (d :: synthed) rest
  | synthed, PlatformEvent.model d :: rest => execAfterSynth (synthed.erase d) rest
  | synthed, PlatformEvent.transform d _ :: rest => execAfterSynth (synthed.erase d) rest
  | synthed, PlatformEvent.exec a :: rest => synthed.contains a && execAfterSynth synthed rest
  | synthed, _ :: rest => execAfterSynth synthed rest

/-- Trace of the compression notebook: model1 = create_model(main);
quantum_program1 = synthesize(model1); job1 = execute(quantum_program1);
qmod = create_model(main); write_qmod(qmod, ...). -/
def compressionTrace : List PlatformEvent :=
  [.model "model1", .synth "quantum_program1" "model1", .exec "quantum_program1",
   .model "qmod", .other]

/-- Trace of the VQE notebook (unnamed part_001). -/
def vqeTrace : List PlatformEvent :=
  [.model "qmod_hwea", .transform "qmod_hwea" "qmod_hwea",
   .synth "qprog_hwea" "qmod_hwea", .showProg "qprog_hwea",
   .model "serialized_chemistry_model",
   .transform "serialized_chemistry_model" "serialized_chemistry_model",
   .synth "qprog_ucc" "serialized_chemistry_model", .showProg "qprog_ucc",
   .exec "qprog_ucc"]

/-- Trace of the arithmetic-expressions notebook (unnamed part_002). -/
def arithmeticTrace : List PlatformEvent :=
  [.model "qmod", .transform "qmod" "qmod",
   .transform "qmod_1" "qmod", .other,
   .synth "qprog_1" "qmod_1", .showProg "qprog_1", .exec "qprog_1",
   .transform "qmod_2" "qmod", .other,
   .synth "qprog_2" "qmod_2", .showProg "qprog_2", .exec "qprog_2"]

/-- Trace of the quantum-counting notebook. -/
def quantumCountingTrace : List PlatformEvent :=
  [.model "qmod_qpe", .synth "qprog_qpe" "qmod_qpe", .showProg "qprog_qpe",
   .exec "qprog_qpe",
   .model "qmod_iqae", .synth "qprog_iqae" "qmod_iqae", .showProg "qprog_iqae",
   .exec "qprog_iqae",
   .model "qmod", .transform "qmod" "qmod", .other,
   .synth "qprog" "qmod", .showProg "qprog", .exec "qprog"]

/-- C6: in every notebook of the repository, each execute(p) receives
the value of a variable currently bound to the result of a prior
synthesize call on a previously constructed model; no model reaches
execute without synthesis. -/
theorem c6_execute_follows_synthesize :
    execAfterSynth [] compressionTrace = true
    ∧ execAfterSynth [] vqeTrace = true
    ∧ execAfterSynth [] arithmeticTrace = true
    ∧ execAfterSynth [] quantumCountingTrace = true := by
  refine ⟨by decide, by decide, by decide, by decide⟩

/-- Execution parameters record handed to construct_chemistry_model in
the VQE notebook; only the fields the claim concerns are modelled. -/
structure ChemistryExecutionParameters where
  optimizer : String
  max_iteration : ℕ
  initial_point : Option (List ℝ)

/-- Parameters of the first construct_chemistry_model call (HW-efficient
ansatz) in the VQE notebook. -/
def hwea_execution_parameters : ChemistryExecutionParameters :=
  ⟨"COBYLA", 30, none⟩

/-- Parameters of the second construct_chemistry_model call (UCC ansatz)
in the VQE notebook. -/
def ucc_execution_parameters : ChemistryExecutionParameters :=
  ⟨"COBYLA", 30, none⟩

/-- Gate layers of the QAOA ansatz of electric_grid_optimization.qmod:
a phase gate applying the fixed cost expression (which reads only the
quantum variables, never params) with classical coefficient theta, and
an RX layer of angle beta over all qubits. -/
inductive QAOAGate where
  | phaseCost (theta : ℝ)
  | rxLayer (beta : ℝ)

/-- Embedding of main(params, v) of electric_grid_optimization.qmod:
repeat (i : 4) applies phase(-cost, params[i]) and then RX(params[4+i])
on every qubit; params is a classical real[8] input that is only read. -/
def qaoa_main (params : Fin 8 → ℝ) : List QAOAGate :=
  (List.finRange 4).flatMap fun i =>
    [QAOAGate.phaseCost (params ⟨i.val, by have := i.isLt; omega⟩),
     QAOAGate.rxLayer (params ⟨4 + i.val, by have := i.isLt; omega⟩)]

/-- C8: the classical optimization loop is not computed by repository
code: the VQE notebook only hands the platform the optimizer choice
COBYLA with iteration bound 30, and the QAOA model emits a fixed
8-gate-layer sequence whose angles are exactly its 8 classical input
parameters, read unchanged and never updated. -/
theorem c8_optimizer_only_parameters :
    (hwea_execution_parameters.optimizer = "COBYLA"
      ∧ hwea_execution_parameters.max_iteration = 30
      ∧ ucc_execution_parameters.optimizer = "COBYLA"
      ∧ ucc_execution_parameters.max_iteration = 30)
    ∧ ∀ params : Fin 8 → ℝ, qaoa_main params =
        [QAOAGate.phaseCost (params 0), QAOAGate.rxLayer (params 4),
         QAOAGate.phaseCost (params 1), QAOAGate.rxLayer (params 5),
         QAOAGate.phaseCost (params 2), QAOAGate.rxLayer (params 6),
         QAOAGate.phaseCost (params 3), QAOAGate.rxLayer (params 7)] :=
  ⟨⟨rfl, rfl, rfl, rfl⟩, fun _ => rfl⟩

end RepoSurface
